import Mathlib

/-!
Shallow embedding of the `go-message-channel` library: a buffered channel
wrapper (`Channel`) holding a registry of child channels (`ChildrenMap`).

The repository ships near-duplicate revisions of its two files:
* `src/message.go` / `src/sync_map.go` (no `context` parameter), modelled in
  the namespaces `MessageSrc` / `SyncMapSrc`;
* an unnamed `sync_map.go` revision (initialised constructor, one-second
  default poll interval), modelled in `SyncMapV1`;
* unnamed `context`-aware revisions of both files, modelled in `MessageCtx`
  and `SyncMapCtx`.

Go maps `map[uint64]*Channel[Message]` are modelled as association lists
keyed by the `uint64` id; the registry operations never inspect the stored
channel pointers, so the value type stays a parameter `α`.
-/

namespace MessageChannel

/-- Go `uint64` ids, as naturals; the id generator wraps modulo `2 ^ 64`. -/
abbrev U64 := Nat

def u64Size : Nat := 2 ^ 64

/-- `idGenerator.Add(1)`: the value the atomic counter holds (and returns)
after one increment. -/
def idGeneratorAdd (counter : Nat) : Nat := (counter + 1) % u64Size

/-- Go `time.Duration` in nanoseconds; `time.Second` is `1e9`. -/
def timeSecond : Nat := 1000000000

/-- the raw mapping inside a `ChildrenMap`, Go's
`map[uint64]*Channel[Message]`: an association list whose keys are the child
ids. A Go map never holds a key twice; `KeysNodup` states that invariant. -/
abbrev RegMap (α : Type) := List (U64 × α)

abbrev KeysNodup {α : Type} (m : RegMap α) : Prop := (m.map Prod.fst).Nodup

/-- map read `m[id]`. -/
def mapLookup {α : Type} : RegMap α → U64 → Option α
  | [], _ => none
  | (k, v) :: rest, id => if k = id then some v else mapLookup rest id

/-- Go `len(m)`. -/
def mapLen {α : Type} (m : RegMap α) : Nat := m.length

/-- map assignment `f[id] = childChannel`, the body of the closure that
`ChildrenMap.Set` hands to `Run`: overwrite the binding when the key is
present, insert it otherwise. -/
def mapWrite {α : Type} : RegMap α → U64 → α → RegMap α
  | [], id, c => [(id, c)]
  | (k, v) :: rest, id, c =>
      if k = id then (id, c) :: rest else (k, v) :: mapWrite rest id c

/-- `delete(f, id)`, the body of the closure that `ChildrenMap.Remove` hands
to `Run`: drop the binding of `id`, a no-op when `id` is absent. -/
def mapDelete {α : Type} : RegMap α → U64 → RegMap α
  | [], _ => []
  | (k, v) :: rest, id =>
      if k = id then mapDelete rest id else (k, v) :: mapDelete rest id

/-- the `ChildrenMap` struct: a mutex pointer and the map, either of which is
Go's `nil` when the constructor left the field at its zero value. -/
structure ChildrenMap (α : Type) where
  lock : Option Unit
  channelMap : Option (RegMap α)

/-- runtime faults the Go methods can hit: calling `Lock` through a nil
mutex pointer, or writing into a nil map. -/
inductive Fault where
  | nilMutexDeref
  | nilMapWrite
  deriving DecidableEq, Repr

namespace SyncMapSrc

/-- `NewChildrenMap` of `src/sync_map.go`: `&ChildrenMap[Message]{}` — both
fields are left at their zero values, a nil `*sync.RWMutex` and a nil map. -/
def NewChildrenMap (α : Type) : ChildrenMap α :=
  { lock := none, channelMap := none }

end SyncMapSrc

namespace SyncMapV1

/-- `NewChildrenMap` of the unnamed revisions: the mutex is allocated and the
map is created empty with `make`. -/
def NewChildrenMap (α : Type) : ChildrenMap α :=
  { lock := some (), channelMap := some [] }

end SyncMapV1

namespace ChildrenMap

/-- `Size`: `Run` takes the lock first (a nil mutex pointer faults), then the
closure reads `len(f)`; Go's `len` of a nil map is 0. -/
def Size {α : Type} (x : ChildrenMap α) : Except Fault Nat :=
  match x.lock with
  | none => .error .nilMutexDeref
  | some _ => .ok (mapLen (x.channelMap.getD []))

/-- `Set`: `Run` takes the lock, then the closure does `f[id] = childChannel`;
writing into a nil map faults. -/
def Set {α : Type} (x : ChildrenMap α) (id : U64) (c : α) :
    Except Fault (ChildrenMap α) :=
  match x.lock with
  | none => .error .nilMutexDeref
  | some _ =>
      match x.channelMap with
      | none => .error .nilMapWrite
      | some m => .ok { x with channelMap := some (mapWrite m id c) }

/-- `Remove`: `Run` takes the lock, then the closure does `delete(f, id)`;
`delete` on a nil map is a no-op in Go. -/
def Remove {α : Type} (x : ChildrenMap α) (id : U64) :
    Except Fault (ChildrenMap α) :=
  match x.lock with
  | none => .error .nilMutexDeref
  | some _ => .ok { x with channelMap := x.channelMap.map (fun m => mapDelete m id) }

end ChildrenMap

/-- events of one `BlockUtilEmpty` run: each `Run` under the lock is one
`observe` of the current mapping; `callF` is an invocation of the caller's
function `f` with that mapping; `sleep` is `time.Sleep(interval[0])`. -/
inductive BlockEvent (α : Type) where
  | observe (m : RegMap α)
  | callF (m : RegMap α)
  | sleep (d : Nat)
  deriving DecidableEq, Repr

/-- the closure `BlockUtilEmpty` passes to `Run`, acting on the captured
`isMapNotEmpty` flag: when the map is empty it assigns the flag `false` and
returns; otherwise it calls `f` when `f` is non-nil. No branch ever assigns
the flag `true`. Returns the flag afterwards together with the events. -/
def blockRunBody {α : Type} (fPresent : Bool) (flag : Bool) (m : RegMap α) :
    Bool × List (BlockEvent α) :=
  if mapLen m = 0 then (false, [.observe m])
  else if fPresent then (flag, [.observe m, .callF m])
  else (flag, [.observe m])

/-- the `for` loop of `BlockUtilEmpty`, run against the sequence of mapping
snapshots its successive `Run` calls would observe (other goroutines mutate
the registry between polls). Each iteration runs the closure, breaks when the
`isMapNotEmpty` flag is `false`, and otherwise sleeps `interval` and loops.
`some trace` means the loop exited with that event trace; `none` means it
would poll more often than the supplied snapshots. -/
def blockLoop {α : Type} (fPresent : Bool) (interval : Nat) :
    Bool → List (RegMap α) → Option (List (BlockEvent α))
  | _, [] => none
  | flag, m :: rest =>
      let r := blockRunBody fPresent flag m
      if r.1 = false then some r.2
      else
        match blockLoop fPresent interval r.1 rest with
        | none => none
        | some t => some (r.2 ++ BlockEvent.sleep interval :: t)

namespace SyncMapSrc

/-- the poll interval `src/sync_map.go` uses: `interval[0]` after
`interval = append(interval, time.Second*3)` when the variadic argument was
omitted. -/
def defaultInterval (interval : List Nat) : Nat :=
  match interval with
  | [] => 3 * timeSecond
  | i :: _ => i

/-- `BlockUtilEmpty` of `src/sync_map.go`: the `isMapNotEmpty` flag starts
`false` and the loop runs with the (possibly defaulted) interval. -/
def BlockUtilEmpty {α : Type} (fPresent : Bool) (interval : List Nat)
    (snapshots : List (RegMap α)) : Option (List (BlockEvent α)) :=
  blockLoop fPresent (defaultInterval interval) false snapshots

end SyncMapSrc

namespace SyncMapV1

/-- the poll interval of the unnamed non-context revision: the default is
`time.Second`. -/
def defaultInterval (interval : List Nat) : Nat :=
  match interval with
  | [] => timeSecond
  | i :: _ => i

/-- `BlockUtilEmpty` of the unnamed non-context revision; only the default
interval differs from `src/sync_map.go`. -/
def BlockUtilEmpty {α : Type} (fPresent : Bool) (interval : List Nat)
    (snapshots : List (RegMap α)) : Option (List (BlockEvent α)) :=
  blockLoop fPresent (defaultInterval interval) false snapshots

end SyncMapV1

namespace SyncMapCtx

/-- the poll interval of the context-aware revision: the default is
`time.Second` ("默认是每隔1秒试探一次"). -/
def defaultInterval (interval : List Nat) : Nat :=
  match interval with
  | [] => timeSecond
  | i :: _ => i

end SyncMapCtx

/-- events of one `SenderWaitAndClose` run: the polling phase, then
`close(x.channel)`, then `x.selfWorkerWg.Wait()`. -/
inductive ShutdownEvent (α : Type) where
  | block (e : BlockEvent α)
  | closeChannel
  | waitWorker
  deriving DecidableEq, Repr

namespace MessageSrc

/-- `SenderWaitAndClose` of `src/message.go`: `fs` lists the variadic `f`
arguments as "is this function non-nil"; when empty, a nil entry is appended
and `f[0]` is passed to `BlockUtilEmpty`. After `BlockUtilEmpty` returns the
queue is closed and the worker is awaited. -/
def SenderWaitAndClose {α : Type} (fs : List Bool) (snapshots : List (RegMap α)) :
    Option (List (ShutdownEvent α)) :=
  let fPresent := match fs with | [] => false | b :: _ => b
  match SyncMapSrc.BlockUtilEmpty fPresent [] snapshots with
  | none => none
  | some t => some (t.map .block ++ [.closeChannel, .waitWorker])

end MessageSrc

namespace MessageSrc

/-- the consumption loop of `src/message.go`'s `NewChannel`: `count := 1`,
then `for message := range x.channel` invokes the consumer (when non-nil)
with `(count, message)` — `count` is never incremented. Returns the
`(index, message)` argument pairs of the successive consumer invocations. -/
def consumeLoop (M : Type) (hasConsumer : Bool) (count : Nat) :
    List M → List (Nat × M)
  | [] => []
  | msg :: rest =>
      (if hasConsumer then [(count, msg)] else []) ++ consumeLoop M hasConsumer count rest

/-- the consumer invocations of `src/message.go`'s worker over the messages
the channel delivers, starting from `count := 1`. -/
def consumerInvocations (M : Type) (hasConsumer : Bool) (msgs : List M) :
    List (Nat × M) :=
  consumeLoop M hasConsumer 1 msgs

end MessageSrc

namespace MessageCtx

/-- the consumption loop of the context-aware revision: `count := 0` and
`count++` before each (optional) consumer invocation. -/
def consumeLoop (M : Type) (hasConsumer : Bool) (count : Nat) :
    List M → List (Nat × M)
  | [] => []
  | msg :: rest =>
      (if hasConsumer then [(count + 1, msg)] else []) ++
        consumeLoop M hasConsumer (count + 1) rest

/-- the consumer invocations of the context-aware revision's worker. -/
def consumerInvocations (M : Type) (hasConsumer : Bool) (msgs : List M) :
    List (Nat × M) :=
  consumeLoop M hasConsumer 0 msgs

end MessageCtx

/-- events of a whole consumer-goroutine run: the per-message consumer
invocations, the deferred `selfWorkerWg.Done()`, and the deferred close
listener invocation. -/
inductive TaskEvent (M : Type) where
  | consume (seq : Nat) (msg : M)
  | wgDone
  | closeListenerCall

def TaskEvent.isWgDone {M : Type} : TaskEvent M → Bool
  | .wgDone => true
  | _ => false

def TaskEvent.isCloseListenerCall {M : Type} : TaskEvent M → Bool
  | .closeListenerCall => true
  | _ => false

namespace MessageSrc

/-- the consumer goroutine `NewChannel` starts, as its event trace over the
messages the queue delivers before being closed: the `for range` loop runs to
exhaustion, then the deferred block runs `x.selfWorkerWg.Done()` first and
afterwards invokes `x.options.CloseEventListener` when it is non-nil. -/
def consumerTask (M : Type) (hasConsumer hasListener : Bool) (msgs : List M) :
    List (TaskEvent M) :=
  (consumerInvocations M hasConsumer msgs).map (fun p => .consume p.1 p.2) ++
    TaskEvent.wgDone :: (if hasListener then [TaskEvent.closeListenerCall] else [])

end MessageSrc

/-- one statement of a `ReceiverWait` body, and whether it can complete once
the worker goroutine has exited: `selfWorkerWg.Wait()` returns exactly when
the worker's deferred `Done` has run; a `select` with no cases never
proceeds (Go specification), so it completes under no condition. -/
inductive WaitInstr where
  | wgWait
  | selectEmpty
  deriving DecidableEq, Repr

def instrCompletes (workerExited : Bool) : WaitInstr → Bool
  | .wgWait => workerExited
  | .selectEmpty => false

/-- whether a `ReceiverWait` body runs to completion (returns to the caller)
given that the worker goroutine has or has not exited. -/
def waitBodyReturns (workerExited : Bool) (body : List WaitInstr) : Bool :=
  body.all (instrCompletes workerExited)

namespace MessageSrc

/-- `ReceiverWait` of `src/message.go`: only `x.selfWorkerWg.Wait()`. -/
def ReceiverWait : List WaitInstr := [.wgWait]

end MessageSrc

namespace MessageCtx

/-- `ReceiverWait` of the context-aware revision: `x.selfWorkerWg.Wait()`
followed by an empty `select {}`. -/
def ReceiverWait : List WaitInstr := [.wgWait, .selectEmpty]

end MessageCtx

/-- the Go error value the context-aware `Send` returns on cancellation. -/
inductive GoErr where
  | contextCanceled
  deriving DecidableEq, Repr

/-- outcome of `Send`'s `select` at one scheduling instant: the send case ran
(message appended to the buffer), the `ctx.Done()` case ran
(`context.Canceled`, buffer untouched), or neither case is ready and the
caller stays blocked. -/
inductive SendOutcome (M : Type) where
  | ok (buf : List M)
  | err (e : GoErr) (buf : List M)
  | blocked

namespace MessageCtx

/-- `Send` of the context-aware revision: `buf` holds the buffered contents
of `x.channel` and `cap` its capacity, so the send case of the `select` is
ready exactly when `buf` has room; `ctxDone` is whether the caller's
cancellation has fired. -/
def Send (M : Type) (buf : List M) (cap : Nat) (ctxDone : Bool) (msg : M) :
    SendOutcome M :=
  if buf.length < cap then .ok (buf ++ [msg])
  else if ctxDone then .err .contextCanceled buf
  else .blocked

end MessageCtx

/-- symbolic value of the `ChannelConsumerFunc` option: absent (Go nil), a
user-supplied function, or the forwarding closure `MakeChildChannel` builds,
which sends every consumed message into the channel with the given id. -/
inductive ConsumerSpec where
  | nilFunc
  | user
  | forwardToChannel (id : U64)
  deriving DecidableEq, Repr

/-- symbolic value of the `CloseEventListener` option: absent (Go nil), a
user-supplied function, or the removal closure `MakeChildChannel` installs,
which removes `childId` from the registry of channel `parentId`. -/
inductive CloseListenerSpec where
  | nilFunc
  | user
  | removeFromChildren (parentId : U64) (childId : U64)
  deriving DecidableEq, Repr

/-- the `ChannelOptions` fields the core uses. -/
structure ChannelOptions where
  CloseEventListener : CloseListenerSpec
  ChannelConsumerFunc : ConsumerSpec
  ChannelBuffSize : Nat
  deriving DecidableEq, Repr

/-- a `Channel` as its identity and configuration; its mutable pieces (the
queue, the children registry, the wait group) are modelled as explicit state
at the operations that touch them. -/
structure Channel where
  ID : U64
  options : ChannelOptions
  deriving DecidableEq, Repr

/-- what one invocation of a consumer callback does. -/
inductive ConsumerEffect (M : Type) where
  | nothing
  | userCall (index : Nat) (msg : M)
  | sendInto (channelId : U64) (msg : M)

/-- running `ChannelConsumerFunc(index, message)`: the forwarding closure
`func(index int, message Message) { x.channel <- message }` ignores the index
and sends the message into the capturing channel's queue. -/
def runConsumer (M : Type) (c : ConsumerSpec) (index : Nat) (msg : M) :
    ConsumerEffect M :=
  match c with
  | .nilFunc => .nothing
  | .user => .userCall index msg
  | .forwardToChannel id => .sendInto id msg

/-- effect of a close listener on a registry mapping: the closure
`MakeChildChannel` installs runs `x.childrenChannelMap.Remove(subChannel.ID)`,
deleting the child's key from the parent's mapping; the other listener
values do not touch the mapping. -/
def runCloseListenerOn {α : Type} (l : CloseListenerSpec) (m : RegMap α) :
    RegMap α :=
  match l with
  | .removeFromChildren _ childId => mapDelete m childId
  | _ => m

/-- result of `MakeChildChannel`: the sub channel, the fresh empty registry
`NewChannel` created for it, the parent's registry mapping after `Set`, and
the id generator counter afterwards. -/
structure MakeChildResult where
  child : Channel
  childChildren : RegMap Channel
  parentChildren : RegMap Channel
  counter : Nat
  deriving Repr

namespace MessageSrc

/-- `MakeChildChannel` of `src/message.go`, acting on the parent channel, the
parent's registry mapping and the id generator counter: `NewChannel` builds
the sub channel with a fresh id, the forwarding consumer, the parent's buffer
size and an empty children registry; then the sub channel's close listener is
set to remove itself from the parent; then the sub channel is `Set` into the
parent's registry under `subChannel.ID`, and the sub channel is returned. -/
def MakeChildChannel (parent : Channel) (parentChildren : RegMap Channel)
    (counter : Nat) : MakeChildResult :=
  let childId := idGeneratorAdd counter
  let subChannel : Channel :=
    { ID := childId
      options :=
        { CloseEventListener := .nilFunc
          ChannelConsumerFunc := .forwardToChannel parent.ID
          ChannelBuffSize := parent.options.ChannelBuffSize } }
  let subChannel : Channel :=
    { subChannel with
        options :=
          { subChannel.options with
              CloseEventListener := .removeFromChildren parent.ID subChannel.ID } }
  { child := subChannel
    childChildren := []
    parentChildren := mapWrite parentChildren subChannel.ID subChannel
    counter := childId }

end MessageSrc

/-! Helper lemmas about the raw map operations. -/

theorem mapLookup_mapWrite_self {α : Type} (m : RegMap α) (id : U64) (c : α) :
    mapLookup (mapWrite m id c) id = some c := by
  induction m with
  | nil => simp [mapWrite, mapLookup]
  | cons p rest ih =>
      obtain ⟨k, v⟩ := p
      by_cases h : k = id
      · simp [mapWrite, h, mapLookup]
      · simp [mapWrite, h, mapLookup, ih]

theorem mapLookup_mapWrite_ne {α : Type} (m : RegMap α) (id k : U64) (c : α)
    (h : k ≠ id) : mapLookup (mapWrite m id c) k = mapLookup m k := by
  induction m with
  | nil => simp [mapWrite, mapLookup, Ne.symm h]
  | cons p rest ih =>
      obtain ⟨k', v⟩ := p
      by_cases h2 : k' = id
      · subst h2
        simp [mapWrite, mapLookup, Ne.symm h]
      · by_cases h3 : k' = k
        · simp [mapWrite, h2, mapLookup, h3, h]
        · simp [mapWrite, h2, mapLookup, h3, ih]

theorem mapLookup_mapDelete_self {α : Type} (m : RegMap α) (id : U64) :
    mapLookup (mapDelete m id) id = none := by
  induction m with
  | nil => rfl
  | cons p rest ih =>
      obtain ⟨k, v⟩ := p
      by_cases h : k = id
      · simp [mapDelete, h, ih]
      · simp [mapDelete, h, mapLookup, ih]

theorem mapLookup_mapDelete_ne {α : Type} (m : RegMap α) (id k : U64)
    (h : k ≠ id) : mapLookup (mapDelete m id) k = mapLookup m k := by
  induction m with
  | nil => rfl
  | cons p rest ih =>
      obtain ⟨k', v⟩ := p
      by_cases h2 : k' = id
      · subst h2
        simp [mapDelete, mapLookup, Ne.symm h, ih]
      · by_cases h3 : k' = k
        · simp [mapDelete, h2, mapLookup, h3, h]
        · simp [mapDelete, h2, mapLookup, h3, ih]

theorem mapDelete_of_lookup_none {α : Type} (m : RegMap α) (id : U64)
    (h : mapLookup m id = none) : mapDelete m id = m := by
  induction m with
  | nil => rfl
  | cons p rest ih =>
      obtain ⟨k, v⟩ := p
      by_cases h2 : k = id
      · simp [mapLookup, h2] at h
      · simp [mapLookup, h2] at h
        simp [mapDelete, h2, ih h]

theorem mapLookup_none_of_not_mem_keys {α : Type} (m : RegMap α) (id : U64)
    (h : id ∉ m.map Prod.fst) : mapLookup m id = none := by
  induction m with
  | nil => rfl
  | cons p rest ih =>
      obtain ⟨k, v⟩ := p
      simp only [List.map_cons, List.mem_cons, not_or] at h
      simp [mapLookup, Ne.symm h.1, ih h.2]

theorem mapLen_mapDelete {α : Type} (m : RegMap α) (id : U64) (c : α)
    (hn : KeysNodup m) (h : mapLookup m id = some c) :
    mapLen (mapDelete m id) + 1 = mapLen m := by
  induction m with
  | nil => simp [mapLookup] at h
  | cons p rest ih =>
      obtain ⟨k, v⟩ := p
      simp only [KeysNodup, List.map_cons, List.nodup_cons] at hn
      by_cases h2 : k = id
      · subst h2
        have hrest : mapLookup rest k = none :=
          mapLookup_none_of_not_mem_keys rest k hn.1
        simp [mapDelete, mapDelete_of_lookup_none rest k hrest, mapLen]
      · simp only [mapLookup, if_neg h2] at h
        simp [mapDelete, h2, mapLen] at ih ⊢
        exact ih hn.2 h

theorem countP_map_consume_eq_zero {M : Type} (p : TaskEvent M → Bool)
    (hp : ∀ s m, p (TaskEvent.consume s m) = false) (l : List (Nat × M)) :
    (l.map (fun q => TaskEvent.consume q.1 q.2)).countP p = 0 := by
  induction l with
  | nil => rfl
  | cons q rest ih => simp [List.countP_cons, hp, ih]

/-!  The claims. -/

/-- C1: refuted on the code — `SenderWaitAndClose` closes the queue without
any observation having found the children registry empty. With a single poll
snapshot in which the registry holds one child (key 5), the run returns the
trace observe-nonempty, close, wait: `BlockUtilEmpty`'s `isMapNotEmpty` flag
is never assigned `true`, so its loop always breaks after the first `Run`,
and the `close(x.channel)` step executes although the one observation in the
trace saw the non-empty mapping. -/
theorem claim_C1_close_unguarded_by_registry_emptiness :
    mapLen [((5 : U64), (0 : Nat))] ≠ 0 ∧
      MessageSrc.SenderWaitAndClose [] [[(5, 0)]] =
        some [.block (.observe [(5, 0)]), .closeChannel, .waitWorker] := by
  exact ⟨by decide, rfl⟩

/-- C2: refuted on the code — `BlockUtilEmpty` returns (`some` trace) right
after its first observation even though that observation found the mapping
non-empty: it invokes `f` once and then breaks out of the loop without any
`sleep` or re-check, because the `isMapNotEmpty` flag it tests is never
assigned `true`. Its own doc comment says it blocks until the map is empty. -/
theorem claim_C2_blockUtilEmpty_returns_on_nonempty_observation :
    mapLen [((5 : U64), (0 : Nat))] ≠ 0 ∧
      SyncMapSrc.BlockUtilEmpty true [] [[(5, 0)]] =
        some [.observe [(5, 0)], .callF [(5, 0)]] := by
  exact ⟨by decide, rfl⟩

/-- C3: refuted on `src/message.go` — its consumer loop initialises
`count := 1` and never increments it, so over the two sends `[10, 20]` the
callback is invoked with sequence numbers 1, 1; the context-aware revision
(`count++` per message) yields the claimed 1, 2. -/
theorem claim_C3_sequence_numbers_stuck_at_one :
    MessageSrc.consumerInvocations Nat true [10, 20] = [(1, 10), (1, 20)] ∧
      MessageCtx.consumerInvocations Nat true [10, 20] = [(1, 10), (2, 20)] ∧
      [(1, 10), (1, 20)] ≠ [(1, 10), (2, 20)] := by
  exact ⟨rfl, rfl, by decide⟩

/-- C4: refuted on `src/sync_map.go` — its `NewChildrenMap` returns
`&ChildrenMap{}` with a nil mutex pointer and a nil map, so the first `Size`
or `Set` on the fresh registry dereferences the nil mutex and faults; the
unnamed revisions initialise both fields, and on them `Size` is 0 and
`Set 1 7` inserts the entry. -/
theorem claim_C4_fresh_registry_faults_on_nil_lock :
    ChildrenMap.Size (SyncMapSrc.NewChildrenMap Nat) = .error .nilMutexDeref ∧
      ChildrenMap.Set (SyncMapSrc.NewChildrenMap Nat) 1 7 = .error .nilMutexDeref ∧
      ChildrenMap.Size (SyncMapV1.NewChildrenMap Nat) = .ok 0 ∧
      ChildrenMap.Set (SyncMapV1.NewChildrenMap Nat) 1 7 =
        .ok { lock := some (), channelMap := some [(1, 7)] } := by
  exact ⟨rfl, rfl, rfl, rfl⟩

/-- C5: `MakeChildChannel` returns a sub channel whose buffer size equals the
parent's, whose consumer callback forwards every consumed message into the
parent's queue (for every index and message its effect is a send into the
channel with the parent's id), and whose close listener deletes the sub
channel's id from the mapping it is run against; and the parent's registry
mapping afterwards binds the sub channel's id to the sub channel. -/
theorem claim_C5_makeChildChannel_wiring (parent : Channel)
    (parentChildren : RegMap Channel) (counter : Nat) :
    (MessageSrc.MakeChildChannel parent parentChildren counter).child.options.ChannelBuffSize
        = parent.options.ChannelBuffSize ∧
      (∀ (M : Type) (index : Nat) (msg : M),
        runConsumer M
            (MessageSrc.MakeChildChannel parent parentChildren counter).child.options.ChannelConsumerFunc
            index msg =
          ConsumerEffect.sendInto parent.ID msg) ∧
      (∀ m : RegMap Channel,
        runCloseListenerOn
            (MessageSrc.MakeChildChannel parent parentChildren counter).child.options.CloseEventListener
            m =
          mapDelete m (MessageSrc.MakeChildChannel parent parentChildren counter).child.ID) ∧
      mapLookup (MessageSrc.MakeChildChannel parent parentChildren counter).parentChildren
          (MessageSrc.MakeChildChannel parent parentChildren counter).child.ID =
        some (MessageSrc.MakeChildChannel parent parentChildren counter).child := by
  refine ⟨rfl, fun M index msg => rfl, fun m => rfl, ?_⟩
  exact mapLookup_mapWrite_self parentChildren
    (idGeneratorAdd counter)
    (MessageSrc.MakeChildChannel parent parentChildren counter).child

/-- C6: when the buffer is full (no room) and the caller's cancellation has
fired, `Send` returns `context.Canceled` and leaves the buffer exactly as it
was; when the buffer has room, the send case of the `select` is ready and
`Send` appends the message and reports success, whatever the cancellation
state. -/
theorem claim_C6_send_cancellation_vs_room (M : Type) (buf : List M)
    (cap : Nat) (msg : M) :
    (cap ≤ buf.length →
        MessageCtx.Send M buf cap true msg = .err .contextCanceled buf) ∧
      (∀ ctxDone : Bool, buf.length < cap →
        MessageCtx.Send M buf cap ctxDone msg = .ok (buf ++ [msg])) := by
  constructor
  · intro h
    simp [MessageCtx.Send, Nat.not_lt.mpr h]
  · intro ctxDone h
    simp [MessageCtx.Send, h]

/-- C6 witness: a full one-slot buffer with the cancellation fired yields
`context.Canceled` and the untouched buffer; an empty one-slot buffer accepts
the message. -/
theorem claim_C6_send_cancellation_vs_room_witness :
    MessageCtx.Send Nat [0] 1 true 7 = .err .contextCanceled [0] ∧
      MessageCtx.Send Nat [] 1 false 7 = .ok [7] :=
  ⟨(claim_C6_send_cancellation_vs_room Nat [0] 1 7).1 (by decide),
   (claim_C6_send_cancellation_vs_room Nat [] 1 7).2 false (by decide)⟩

/-- C7: refuted on the context-aware revision — its `ReceiverWait` executes
an empty `select` after `selfWorkerWg.Wait()`, so even once the worker has
exited the body never returns; the `src/message.go` body (the bare wait)
does return once the worker has exited. -/
theorem claim_C7_receiverWait_blocks_after_completion :
    waitBodyReturns true MessageCtx.ReceiverWait = false ∧
      waitBodyReturns true MessageSrc.ReceiverWait = true := by
  exact ⟨rfl, rfl⟩

/-- C8: over every run of the consumer task, the deferred
`selfWorkerWg.Done()` — the step that marks completion — occurs exactly once
in the trace; the close listener is invoked exactly once when configured and
never otherwise; and the trace splits as a prefix free of both events,
followed by the completion mark, followed by the optional listener call — so
the listener fires only after completion is marked done. -/
theorem claim_C8_completion_once_listener_after (M : Type)
    (hasConsumer hasListener : Bool) (msgs : List M) :
    (MessageSrc.consumerTask M hasConsumer hasListener msgs).countP
        TaskEvent.isWgDone = 1 ∧
      (MessageSrc.consumerTask M hasConsumer hasListener msgs).countP
          TaskEvent.isCloseListenerCall = (if hasListener then 1 else 0) ∧
      ∃ pre,
        MessageSrc.consumerTask M hasConsumer hasListener msgs =
            pre ++ TaskEvent.wgDone ::
              (if hasListener then [TaskEvent.closeListenerCall] else []) ∧
          pre.countP TaskEvent.isWgDone = 0 ∧
          pre.countP TaskEvent.isCloseListenerCall = 0 := by
  refine ⟨?_, ?_, ?_⟩
  · cases hasListener <;>
      simp [MessageSrc.consumerTask, List.countP_append, List.countP_cons,
        countP_map_consume_eq_zero TaskEvent.isWgDone (fun s m => rfl),
        TaskEvent.isWgDone, TaskEvent.isCloseListenerCall]
  · cases hasListener <;>
      simp [MessageSrc.consumerTask, List.countP_append, List.countP_cons,
        countP_map_consume_eq_zero TaskEvent.isCloseListenerCall (fun s m => rfl),
        TaskEvent.isWgDone, TaskEvent.isCloseListenerCall]
  · refine ⟨(MessageSrc.consumerInvocations M hasConsumer msgs).map
        (fun q => TaskEvent.consume q.1 q.2), ?_, ?_, ?_⟩
    · rfl
    · exact countP_map_consume_eq_zero TaskEvent.isWgDone (fun s m => rfl) _
    · exact countP_map_consume_eq_zero TaskEvent.isCloseListenerCall (fun s m => rfl) _

/-- C9 counterexample: called with no explicit interval, the
`src/sync_map.go` revision of `BlockUtilEmpty` polls with `time.Second*3`,
not with one second. -/
theorem claim_C9_default_interval_counterexample :
    SyncMapSrc.defaultInterval [] ≠ timeSecond := by
  decide

/-- C9 amended: the default poll interval is `time.Second*3` in
`src/sync_map.go` and one second in the unnamed revisions; an explicit first
variadic argument is used as given in all revisions. -/
theorem claim_C9_default_interval_amended :
    SyncMapSrc.defaultInterval [] = 3 * timeSecond ∧
      SyncMapV1.defaultInterval [] = timeSecond ∧
      SyncMapCtx.defaultInterval [] = timeSecond ∧
      (∀ i rest, SyncMapSrc.defaultInterval (i :: rest) = i) ∧
      (∀ i rest, SyncMapV1.defaultInterval (i :: rest) = i) := by
  exact ⟨rfl, rfl, rfl, fun i rest => rfl, fun i rest => rfl⟩

/-- C10: frame properties of the registry mutations on the raw mapping.
Deleting an absent key returns the mapping unchanged (and faults nowhere);
deleting a present key, with the Go-map invariant that keys are unique,
removes exactly one entry, unbinds exactly that key and preserves the binding
of every other key; writing a key binds it to the new value and preserves the
binding of every other key. -/
theorem claim_C10_set_remove_frame (α : Type) (m : RegMap α) (id : U64) (c : α) :
    (mapLookup m id = none → mapDelete m id = m) ∧
      (∀ c', mapLookup m id = some c' → KeysNodup m →
        mapLen (mapDelete m id) + 1 = mapLen m) ∧
      mapLookup (mapDelete m id) id = none ∧
      (∀ k, k ≠ id → mapLookup (mapDelete m id) k = mapLookup m k) ∧
      mapLookup (mapWrite m id c) id = some c ∧
      (∀ k, k ≠ id → mapLookup (mapWrite m id c) k = mapLookup m k) := by
  refine ⟨mapDelete_of_lookup_none m id, ?_, mapLookup_mapDelete_self m id,
    fun k hk => mapLookup_mapDelete_ne m id k hk,
    mapLookup_mapWrite_self m id c,
    fun k hk => mapLookup_mapWrite_ne m id k c hk⟩
  intro c' h hn
  exact mapLen_mapDelete m id c' hn h

/-- C10 witness: on the concrete two-entry mapping `[(1, 10), (2, 20)]`,
removing the absent key 3 returns it unchanged; removing key 1 shrinks it by
exactly one entry and keeps the binding of key 2; writing key 1 keeps the
binding of key 2. -/
theorem claim_C10_set_remove_frame_witness :
    mapDelete [((1 : U64), (10 : Nat)), (2, 20)] 3 = [(1, 10), (2, 20)] ∧
      mapLen (mapDelete [((1 : U64), (10 : Nat)), (2, 20)] 1) + 1 = 2 ∧
      mapLookup (mapDelete [((1 : U64), (10 : Nat)), (2, 20)] 1) 2 = some 20 ∧
      mapLookup (mapWrite [((1 : U64), (10 : Nat)), (2, 20)] 1 99) 2 = some 20 :=
  ⟨(claim_C10_set_remove_frame Nat [(1, 10), (2, 20)] 3 99).1 (by decide),
   (claim_C10_set_remove_frame Nat [(1, 10), (2, 20)] 1 99).2.1 10 (by decide) (by decide),
   (claim_C10_set_remove_frame Nat [(1, 10), (2, 20)] 1 99).2.2.2.1 2 (by decide),
   (claim_C10_set_remove_frame Nat [(1, 10), (2, 20)] 1 99).2.2.2.2.2 2 (by decide)⟩

end MessageChannel
